import Mathlib

/-!
Verification development for the Attendance Tracker backend
(`src/backend/server.js`, Express + PostgreSQL).

The definitions below are a shallow embedding of the data model and of the
request handlers that the verified properties are about:

* the `Nurses`, `Roster_Planned` and `Roster_Actual` tables (rows as plain
  structures, a table as a `List` of rows; the `UNIQUE(nurse_id, date)`
  constraint appears as the `WFTable` predicate);
* `GET /api/roster-status` (`getStatusMap`);
* `GET /api/roster` (`getRoster`, the LEFT JOIN read);
* `POST /api/roster-planned` / `POST /api/roster-actual`
  (`upsertRow`, `batchUpsert`);
* `POST /api/nurses` (`createNurse`);
* `GET /api/report-actual` (`buildReport` and its pieces).

Conventions of the embedding:
* JavaScript strings coming from `TEXT` columns are Lean `String`s; an SQL
  `NULL` shift code and the empty string are both modelled as `""` (for every
  operation the handlers perform on them — `||`, `Array.includes` — the two
  are indistinguishable: both are falsy and neither is a member of the code
  lists).
* The SQL month filter `to_char(date::date, 'YYYY-MM') = $1` is modelled as
  `inMonth`, which compares the first seven characters of the stored date
  string with the requested month; on canonical `YYYY-MM-DD` strings this is
  exactly what the SQL computes.  Theorems about the report builder itself
  quantify over the already-fetched row lists, as the handler does.
* `parseInt(x, 10)` on a day component is `jsParseInt`: `NaN` is `none`.
  Day components produced by `split("-")` never contain a `-`, so negative
  results are impossible; a JS negative would be skipped by the
  `shifts[day]` guard exactly as `none` is here.
-/

namespace Attend

/-- A row of the `Nurses` table (`nurse_id`, `full_name`, `group_id`),
as returned by `SELECT * FROM Nurses ORDER BY group_id, full_name`. -/
structure Nurse where
  nurse_id : Nat
  full_name : String
  group_id : Int
deriving Repr, DecidableEq

/-- A row of `Roster_Planned` or `Roster_Actual` (the serial id column is
never read by the handlers and is omitted). -/
structure RosterRow where
  nurse_id : Nat
  date : String
  shift_code : String
  ward : String
deriving Repr, DecidableEq

/-- One cell of the report's per-nurse/per-day map,
`dataMap[n.nurse_id].shifts[day] = { planned: "", actual: "" }`. -/
structure Cell where
  planned : String
  actual : String
deriving Repr, DecidableEq

/-- JavaScript `String.prototype.split("-")` on the character list of the
string: split at every `'-'`, keeping empty pieces. -/
def splitDashChars : List Char → List (List Char)
  | [] => [[]]
  | c :: cs =>
    let r := splitDashChars cs
    if c = '-' then [] :: r
    else
      match r with
      | [] => [[c]]
      | h :: t => (c :: h) :: t

/-- `String.prototype.split("-")` as a function on strings. -/
def splitDash (s : String) : List String :=
  (splitDashChars s.toList).map (fun cs => String.mk cs)

/-- JavaScript `parseInt(s, 10)`: skip leading whitespace, then read a
digit prefix; no digit means `NaN`, modelled as `none`.  (A leading `'-'`
cannot occur in a component produced by `split("-")`.) -/
def jsParseInt (s : String) : Option Nat :=
  let t := (s.toList.dropWhile (fun c => c.isWhitespace)).takeWhile
    (fun c => c.isDigit)
  if t.isEmpty then none
  else some (t.foldl (fun a c => 10 * a + (c.toNat - 48)) 0)

/-- The day number the report builder extracts from a stored date string:
`parseInt(p.date.split("-")[2], 10)`.  A missing third component is
`parseInt(undefined, 10) = NaN`, i.e. `none`. -/
def parseDay (date : String) : Option Nat :=
  match (splitDash date).get? 2 with
  | none => none
  | some s => jsParseInt s

/-- `const [year, monthNum] = month.split("-").map(Number)` for the
`YYYY-MM` month strings the UI sends. -/
def parseMonth (month : String) : Nat × Nat :=
  match splitDash month with
  | y :: m :: _ => ((jsParseInt y).getD 0, (jsParseInt m).getD 0)
  | [y] => ((jsParseInt y).getD 0, 0)
  | [] => (0, 0)

/-- Gregorian leap-year rule, as implemented by the JS `Date` object. -/
def isLeapYear (y : Nat) : Bool :=
  y % 4 == 0 && (y % 100 != 0 || y % 400 == 0)

/-- `new Date(year, monthNum, 0).getDate()`: the number of days of month
`m` (1-12) of year `y`. -/
def daysInMonth (y m : Nat) : Nat :=
  if m = 2 then (if isLeapYear y then 29 else 28)
  else if m = 4 ∨ m = 6 ∨ m = 9 ∨ m = 11 then 30
  else 31

/-- The number of day columns the report uses for a `YYYY-MM` month
string. -/
def reportDays (month : String) : Nat :=
  daysInMonth (parseMonth month).1 (parseMonth month).2

/-- The SQL month filter `to_char(date::date, 'YYYY-MM') = month`, on
canonical `YYYY-MM-DD` date strings: the first seven characters. -/
def inMonth (month d : String) : Bool :=
  d.take 7 == month

/-- The day numbers `1 .. days` the report loops over. -/
def dayList (days : Nat) : List Nat :=
  (List.range days).map (· + 1)

/-- The report's `dataMap`, read at `(nurse_id, day)`.  The JS code builds
it as a finite object for the listed nurses and days `1..daysInMonth`; we
use a total function and let the fill guards refuse exactly the writes the
JS guards refuse, so reads at the positions the report visits agree. -/
def Grid : Type := Nat → Nat → Cell

/-- Every cell starts as `{ planned: "", actual: "" }`. -/
def emptyGrid : Grid := fun _ _ => ⟨"", ""⟩

/-- Overwrite the `planned` component of one cell. -/
def setPlanned (g : Grid) (n d : Nat) (code : String) : Grid :=
  fun n' d' => if n' = n ∧ d' = d then ⟨code, (g n' d').actual⟩ else g n' d'

/-- Overwrite the `actual` component of one cell. -/
def setActual (g : Grid) (n d : Nat) (code : String) : Grid :=
  fun n' d' => if n' = n ∧ d' = d then ⟨(g n' d').planned, code⟩ else g n' d'

/-- True when `dataMap[nid]` exists, i.e. `nid` is a listed nurse. -/
def nurseListed (nurses : List Nurse) (nid : Nat) : Bool :=
  nurses.any (fun nu => nu.nurse_id == nid)

/-- One step of the `planned.forEach` fill loop of `GET /api/report-actual`
(server.js 267-278): guarded by `p.date && dataMap[p.nurse_id]`, then by
`day && dataMap[p.nurse_id].shifts[day]` — `day` is falsy for `NaN` and
`0`, and `shifts[day]` exists exactly for `1 ≤ day ≤ daysInMonth`.  The
surrounding `try`/`catch` only wraps total operations (`split`, `parseInt`,
object indexing), so its handler is unreachable and does not appear. -/
def applyPlanned (nurses : List Nurse) (days : Nat) (g : Grid) (r : RosterRow) : Grid :=
  if r.date ≠ "" ∧ nurseListed nurses r.nurse_id then
    match parseDay r.date with
    | some day => if day ≠ 0 ∧ day ≤ days then setPlanned g r.nurse_id day r.shift_code else g
    | none => g
  else g

/-- One step of the `actual.forEach` fill loop (server.js 280-291),
identical to `applyPlanned` but writing the `actual` component. -/
def applyActual (nurses : List Nurse) (days : Nat) (g : Grid) (r : RosterRow) : Grid :=
  if r.date ≠ "" ∧ nurseListed nurses r.nurse_id then
    match parseDay r.date with
    | some day => if day ≠ 0 ∧ day ≤ days then setActual g r.nurse_id day r.shift_code else g
    | none => g
  else g

/-- The fully filled `dataMap`: initialize every cell to `("", "")`, run
the planned fill loop, then the actual fill loop. -/
def builtGrid (nurses : List Nurse) (days : Nat) (pRows aRows : List RosterRow) : Grid :=
  aRows.foldl (applyActual nurses days)
    (pRows.foldl (applyPlanned nurses days) emptyGrid)

/-- Console output of the two fill loops.  The only `console.error` calls
sit in `catch` branches (`Skipping bad planned date`, `Skipping bad actual
date`), but every operation of the guarded `try` blocks is total —
`split` and `parseInt` return values (`NaN` for garbage) instead of
throwing — so the branches never execute and the fill loops log
nothing. -/
def reportWarnings (_pRows _aRows : List RosterRow) : List String := []

/-- The working shift codes, `["A", "M", "N", "G"]` (server.js 318). -/
def workingCodes : List String := ["A", "M", "N", "G"]

/-- The leave/off codes (server.js 319-327), in source order. -/
def leaveCodes : List String := ["PL", "SL", "NH", "PH", "WO", "NO", "SO"]

/-- JavaScript `a || b` on strings: `a` unless `a` is falsy (empty). -/
def jsOr (a b : String) : String :=
  if a = "" then b else a

/-- `const displayCode = shift.actual || shift.planned || ""`. -/
def displayCode (c : Cell) : String :=
  jsOr c.actual (jsOr c.planned "")

/-- The per-nurse counting loop (server.js 312-336): walk the days of the
month accumulating `(totalPlannedShifts, totalDeviations)`.  The `if
(shift)` test of the source is always true (every day `1..daysInMonth`
was initialized), so the loop body is unconditional here. -/
def tally (g : Grid) (nid : Nat) (days : Nat) : Nat × Nat :=
  (dayList days).foldl
    (fun acc d =>
      let c := g nid d
      let pw := workingCodes.contains c.planned
      let al := leaveCodes.contains c.actual
      (if pw then acc.1 + 1 else acc.1, if pw && al then acc.2 + 1 else acc.2))
    (0, 0)

/-- The deviation cell text (server.js 338-342):
`totalPlannedShifts > 0 ? (totalDeviations / totalPlannedShifts) * 100 : 0`
followed by `.toFixed(1)` and a `%` sign.  The JS computation is IEEE
double arithmetic; for the values that occur (`dev ≤ planned ≤ 31`) the
double result of `(dev / planned) * 100` is within `4.5e-14` of the exact
rational, while any non-tie candidate is at least `1/620` away from a
rounding boundary and every exact tie (`planned ∈ {8, 16}`) is exactly
representable, so `toFixed(1)` — round to nearest tenth, ties up — equals
exact round-half-up of `1000 * dev / planned`, computed here as
`(2000 * dev + planned) / (2 * planned)` tenths. -/
def formatDeviation (dev planned : Nat) : String :=
  if planned = 0 then "0.0%"
  else
    let n := (2000 * dev + planned) / (2 * planned)
    toString (n / 10) ++ "." ++ toString (n % 10) ++ "%"

/-- One data row of the report grid: staff name, the displayed code of
each day, and the deviation cell. -/
structure ReportRow where
  name : String
  cells : List String
  deviation : String
deriving Repr, DecidableEq

/-- A worksheet row: either the blank separator `worksheet.addRow({})` or
a nurse's data row. -/
inductive GridRow where
  | blank : GridRow
  | data : ReportRow → GridRow
deriving Repr, DecidableEq

/-- Build one nurse's data row from the filled grid. -/
def nurseRow (g : Grid) (days : Nat) (nu : Nurse) : ReportRow :=
  let t := tally g nu.nurse_id days
  { name := nu.full_name
    cells := (dayList days).map (fun d => displayCode (g nu.nurse_id d))
    deviation := formatDeviation t.2 t.1 }

/-- The `for (const nurse of nurses)` output loop (server.js 302-357) with
its `currentGroup` accumulator: a blank row is added when
`nurse.group_id !== currentGroup && currentGroup !== 0`, and
`currentGroup` starts at the sentinel `0`. -/
def addRows (g : Grid) (days : Nat) : List Nurse → Int → List GridRow
  | [], _ => []
  | nu :: rest, currentGroup =>
    (if nu.group_id ≠ currentGroup ∧ currentGroup ≠ 0 then [GridRow.blank] else [])
      ++ GridRow.data (nurseRow g days nu) :: addRows g days rest nu.group_id

/-- The worksheet rows produced for an ordered nurse list. -/
def reportRows (g : Grid) (days : Nat) (nurses : List Nurse) : List GridRow :=
  addRows g days nurses 0

/-- The report builder: from the ordered nurse list and the fetched
planned/actual rows of the month, the list of worksheet rows. -/
def buildReport (nurses : List Nurse) (pRows aRows : List RosterRow) (month : String) :
    List GridRow :=
  reportRows (builtGrid nurses (reportDays month) pRows aRows) (reportDays month) nurses

/-- The three tables as the handlers see them: `nurses` in
`ORDER BY group_id, full_name` order, and the two roster tables. -/
structure DB where
  nurses : List Nurse
  planned : List RosterRow
  actual : List RosterRow
deriving Repr, DecidableEq

/-- `GET /api/report-actual`: fetch the month's rows and build the
report. -/
def reportActual (db : DB) (month : String) : List GridRow :=
  buildReport db.nurses
    (db.planned.filter (fun r => inMonth month r.date))
    (db.actual.filter (fun r => inMonth month r.date)) month

/-- One entry of the status object of `GET /api/roster-status`: JS
`status[date] = {}` then `.planned = true` / `.actual = true`; an absent
field is falsy, modelled as `false`. -/
structure DayStatus where
  planned : Bool
  actual : Bool
deriving Repr, DecidableEq

/-- The status object: an insertion-ordered map from date string to flags,
as a JS object is. -/
abbrev StatusMap : Type := List (String × DayStatus)

/-- Reading `status[d]`: the (unique) entry with key `d`, if any. -/
def findStatus : StatusMap → String → Option DayStatus
  | [], _ => none
  | e :: m, d => if e.1 = d then some e.2 else findStatus m d

/-- `if (!status[d]) status[d] = {}; status[d].planned = true` — update
the existing entry's `planned` flag in place, or append a fresh entry. -/
def setPlannedFlag : StatusMap → String → StatusMap
  | [], d => [(d, ⟨true, false⟩)]
  | e :: m, d =>
    if e.1 = d then (e.1, ⟨true, e.2.actual⟩) :: m else e :: setPlannedFlag m d

/-- `if (!status[d]) status[d] = {}; status[d].actual = true`. -/
def setActualFlag : StatusMap → String → StatusMap
  | [], d => [(d, ⟨false, true⟩)]
  | e :: m, d =>
    if e.1 = d then (e.1, ⟨e.2.planned, true⟩) :: m else e :: setActualFlag m d

/-- `GET /api/roster-status` (server.js 124-153): the distinct planned
dates and distinct actual dates of the month (`SELECT DISTINCT date …`),
folded into the status object with the `if (row.date)` truthiness
guards. -/
def getStatusMap (db : DB) (month : String) : StatusMap :=
  let plannedDays := ((db.planned.filter (fun r => inMonth month r.date)).map
    (fun r => r.date)).dedup
  let actualDays := ((db.actual.filter (fun r => inMonth month r.date)).map
    (fun r => r.date)).dedup
  let s1 := plannedDays.foldl (fun m d => if d ≠ "" then setPlannedFlag m d else m) []
  actualDays.foldl (fun m d => if d ≠ "" then setActualFlag m d else m) s1

/-- Whether some planned row of the month has date `d`. -/
def hasPlanned (db : DB) (month d : String) : Bool :=
  db.planned.any (fun r => inMonth month r.date && r.date == d)

/-- Whether some actual row of the month has date `d`. -/
def hasActual (db : DB) (month d : String) : Bool :=
  db.actual.any (fun r => inMonth month r.date && r.date == d)

/-- The key test of the upsert's `ON CONFLICT (nurse_id, date)` clause and
of the LEFT JOIN condition. -/
def keyMatch (n : Nat) (dt : String) (r : RosterRow) : Bool :=
  r.nurse_id == n && r.date == dt

/-- The joined `shift_code` for one nurse/date, `NULL` (`none`) when no
row matches — the LEFT JOIN column of `GET /api/roster`. -/
def joinShift (t : List RosterRow) (n : Nat) (dt : String) : Option String :=
  (t.find? (keyMatch n dt)).map (fun r => r.shift_code)

/-- The joined `ward` for one nurse/date. -/
def joinWard (t : List RosterRow) (n : Nat) (dt : String) : Option String :=
  (t.find? (keyMatch n dt)).map (fun r => r.ward)

/-- One output row of `GET /api/roster` (server.js 155-182). -/
structure RosterEntry where
  nurse_id : Nat
  full_name : String
  group_id : Int
  planned_shift : Option String
  planned_ward : Option String
  actual_shift : Option String
  actual_ward : Option String
deriving Repr, DecidableEq

/-- `GET /api/roster`: every nurse (in the stored group/name order), left
joined with the planned and actual rows for the requested date.  Under
the tables' `UNIQUE(nurse_id, date)` constraint the join partner is the
unique matching row, i.e. `find?`. -/
def getRoster (nurses : List Nurse) (p a : List RosterRow) (dt : String) :
    List RosterEntry :=
  nurses.map fun nu =>
    ⟨nu.nurse_id, nu.full_name, nu.group_id,
      joinShift p nu.nurse_id dt, joinWard p nu.nurse_id dt,
      joinShift a nu.nurse_id dt, joinWard a nu.nurse_id dt⟩

/-- The per-entry upsert statement of `POST /api/roster-planned` /
`POST /api/roster-actual`:
`INSERT … ON CONFLICT (nurse_id, date) DO UPDATE SET shift_code, ward` —
if a row with the key exists, overwrite its `shift_code` and `ward` in
place; otherwise insert a new row. -/
def upsertRow (t : List RosterRow) (r : RosterRow) : List RosterRow :=
  if t.any (keyMatch r.nurse_id r.date) then
    t.map (fun x =>
      if keyMatch r.nurse_id r.date x then
        { x with shift_code := r.shift_code, ward := r.ward }
      else x)
  else t ++ [r]

/-- The number of stored rows with a given key. -/
def countKey (t : List RosterRow) (n : Nat) (dt : String) : Nat :=
  (t.filter (keyMatch n dt)).length

/-- The `UNIQUE(nurse_id, date)` table constraint: no two rows share a
key. -/
def WFTable (t : List RosterRow) : Prop :=
  t.Pairwise (fun x y => ¬(x.nurse_id = y.nurse_id ∧ x.date = y.date))

/-- One entry of a roster save request body. -/
structure Entry where
  nurseId : Nat
  shift : String
  ward : String
deriving Repr, DecidableEq

/-- The FOREIGN KEY check of the roster tables: the referenced nurse must
exist. -/
def nurseExists (nurses : List Nurse) (n : Nat) : Bool :=
  nurses.any (fun nu => nu.nurse_id == n)

/-- The PostgreSQL error message surfaced as `details` when an entry's
insert violates the foreign key (the deterministic per-entry failure of
this schema). -/
def fkError (n : Nat) : String :=
  "insert or update on table violates foreign key constraint (nurse_id=" ++
    toString n ++ ")"

/-- The batch body of `POST /api/roster-planned` / `-actual` (server.js
196-207): one upsert per entry via `Promise.all`.  Every entry's statement
runs to completion regardless of the others (a rejection does not cancel
the rest), and the response carries the first failure's message; here the
entries are applied in array order, a failing entry changes no rows, and
the first failure's message is kept. -/
def batchUpsert (nurses : List Nurse) (t : List RosterRow) (dt : String)
    (entries : List Entry) : List RosterRow × Option String :=
  entries.foldl
    (fun acc e =>
      if nurseExists nurses e.nurseId then
        (upsertRow acc.1 ⟨e.nurseId, dt, e.shift, e.ward⟩, acc.2)
      else
        (acc.1, if acc.2.isSome then acc.2 else some (fkError e.nurseId)))
    (t, none)

/-- A JSON value of a request body field (the shapes a client can send
for `group`). -/
inductive JVal where
  | jnull : JVal
  | jstr : String → JVal
  | jnum : Int → JVal
deriving Repr, DecidableEq

/-- JavaScript truthiness of a JSON value: `null`/`undefined`, `""` and
`0` are falsy. -/
def truthy : JVal → Bool
  | JVal.jnull => false
  | JVal.jstr s => s ≠ ""
  | JVal.jnum n => n ≠ 0

/-- All-digits decimal value of a character list. -/
def decimalNat (ds : List Char) : Option Nat :=
  if ds ≠ [] ∧ ds.all (fun c => c.isDigit) then
    some (ds.foldl (fun a c => 10 * a + (c.toNat - 48)) 0)
  else none

/-- A decimal integer literal, as the PostgreSQL text-to-integer cast
reads it: optional sign, then digits only. -/
def decimalInt (s : String) : Option Int :=
  match s.toList with
  | '-' :: ds => (decimalNat ds).map (fun n => -(n : Int))
  | '+' :: ds => (decimalNat ds).map (fun n => (n : Int))
  | ds => (decimalNat ds).map (fun n => (n : Int))

/-- PostgreSQL's cast of the `group` parameter to the `INTEGER` column:
a number passes through, a string must parse as an integer, `NULL` has no
integer value. -/
def pgToInt : JVal → Option Int
  | JVal.jnull => none
  | JVal.jstr s => decimalInt s
  | JVal.jnum n => some n

/-- `POST /api/nurses` (server.js 95-109): the `if (!name || !group)`
validation, then `INSERT INTO Nurses (full_name, group_id)`.  The `name`
field is modelled as the string the client sends (`""` is its falsy
case); `group` keeps its JSON shape, since the stock frontend sends it as
a *string* (`input.value`).  On success the stored `group_id` is the
integer PostgreSQL casts the parameter to. -/
def createNurse (name : String) (group : JVal) : Except String Int :=
  if name = "" || !(truthy group) then
    Except.error "Name and group are required"
  else
    match pgToInt group with
    | some gid => Except.ok gid
    | none => Except.error "invalid input syntax for type integer"

/-- The report row layout the specification describes, with no sentinel:
given the previous nurse's group, each nurse contributes a blank
separator exactly when their group differs from the previous one, and a
first nurse never gets a separator.  (Stated from the spec's words, to be
compared with `reportRows`.) -/
def specSeparatedRows (g : Grid) (days : Nat) : Int → List Nurse → List GridRow
  | _, [] => []
  | prevGroup, nu :: rest =>
    (if nu.group_id = prevGroup then [] else [GridRow.blank])
      ++ GridRow.data (nurseRow g days nu) :: specSeparatedRows g days nu.group_id rest

/-- A fetched row whose day component does not name a day of the report's
month: the day either fails to parse (`NaN`), parses to `0`, or exceeds
the number of days — exactly the rows the fill guards refuse. -/
def badDayRow (month : String) (r : RosterRow) : Bool :=
  match parseDay r.date with
  | none => true
  | some d => d == 0 || decide (reportDays month < d)

/-- The fill loops write the cell `(n, d)` from row `r` exactly when every
guard of `applyPlanned`/`applyActual` passes for that slot. -/
def Writes (nurses : List Nurse) (days : Nat) (r : RosterRow) (n d : Nat) : Prop :=
  r.date ≠ "" ∧ nurseListed nurses r.nurse_id = true ∧ r.nurse_id = n ∧
    parseDay r.date = some d ∧ d ≠ 0 ∧ d ≤ days

/- Pointwise behaviour of the two fill steps. -/

lemma applyPlanned_of_writes {nurses : List Nurse} {days : Nat} {r : RosterRow}
    {n d : Nat} (h : Writes nurses days r n d) (g : Grid) :
    applyPlanned nurses days g r n d = ⟨r.shift_code, (g n d).actual⟩ := by
  obtain ⟨h1, h2, h3, h4, h5, h6⟩ := h
  unfold applyPlanned
  rw [if_pos ⟨h1, h2⟩, h4]
  dsimp only
  rw [if_pos ⟨h5, h6⟩]
  unfold setPlanned
  rw [if_pos ⟨h3.symm, rfl⟩]

lemma applyPlanned_of_not_writes {nurses : List Nurse} {days : Nat} {r : RosterRow}
    {n d : Nat} (h : ¬ Writes nurses days r n d) (g : Grid) :
    applyPlanned nurses days g r n d = g n d := by
  unfold applyPlanned
  by_cases h1 : r.date ≠ "" ∧ (nurseListed nurses r.nurse_id : Prop)
  · rw [if_pos h1]
    cases hp : parseDay r.date with
    | none => rfl
    | some day =>
      dsimp only
      by_cases h2 : day ≠ 0 ∧ day ≤ days
      · rw [if_pos h2]
        unfold setPlanned
        rw [if_neg]
        rintro ⟨hn, hd⟩
        exact h ⟨h1.1, by simpa using h1.2, hn.symm, by rw [hp, hd], hd ▸ h2.1, hd ▸ h2.2⟩
      · rw [if_neg h2]
  · rw [if_neg h1]

lemma applyPlanned_actual (nurses : List Nurse) (days : Nat) (g : Grid)
    (r : RosterRow) (n d : Nat) :
    (applyPlanned nurses days g r n d).actual = (g n d).actual := by
  unfold applyPlanned
  split
  · cases hp : parseDay r.date with
    | none => rfl
    | some day =>
      dsimp only
      by_cases h2 : day ≠ 0 ∧ day ≤ days
      · rw [if_pos h2]
        unfold setPlanned
        split
        · rename_i hs
          rw [hs.1, hs.2]
        · rfl
      · rw [if_neg h2]
  · rfl

lemma applyActual_of_writes {nurses : List Nurse} {days : Nat} {r : RosterRow}
    {n d : Nat} (h : Writes nurses days r n d) (g : Grid) :
    applyActual nurses days g r n d = ⟨(g n d).planned, r.shift_code⟩ := by
  obtain ⟨h1, h2, h3, h4, h5, h6⟩ := h
  unfold applyActual
  rw [if_pos ⟨h1, h2⟩, h4]
  dsimp only
  rw [if_pos ⟨h5, h6⟩]
  unfold setActual
  rw [if_pos ⟨h3.symm, rfl⟩]

lemma applyActual_of_not_writes {nurses : List Nurse} {days : Nat} {r : RosterRow}
    {n d : Nat} (h : ¬ Writes nurses days r n d) (g : Grid) :
    applyActual nurses days g r n d = g n d := by
  unfold applyActual
  by_cases h1 : r.date ≠ "" ∧ (nurseListed nurses r.nurse_id : Prop)
  · rw [if_pos h1]
    cases hp : parseDay r.date with
    | none => rfl
    | some day =>
      dsimp only
      by_cases h2 : day ≠ 0 ∧ day ≤ days
      · rw [if_pos h2]
        unfold setActual
        rw [if_neg]
        rintro ⟨hn, hd⟩
        exact h ⟨h1.1, by simpa using h1.2, hn.symm, by rw [hp, hd], hd ▸ h2.1, hd ▸ h2.2⟩
      · rw [if_neg h2]
  · rw [if_neg h1]

lemma applyActual_planned (nurses : List Nurse) (days : Nat) (g : Grid)
    (r : RosterRow) (n d : Nat) :
    (applyActual nurses days g r n d).planned = (g n d).planned := by
  unfold applyActual
  split
  · cases hp : parseDay r.date with
    | none => rfl
    | some day =>
      dsimp only
      by_cases h2 : day ≠ 0 ∧ day ≤ days
      · rw [if_pos h2]
        unfold setActual
        split
        · rename_i hs
          rw [hs.1, hs.2]
        · rfl
      · rw [if_neg h2]
  · rfl

/- Component behaviour of the whole fill loops. -/

lemma fillPlanned_actual (nurses : List Nurse) (days : Nat) :
    ∀ (rows : List RosterRow) (g : Grid) (n d : Nat),
      ((rows.foldl (applyPlanned nurses days) g) n d).actual = (g n d).actual := by
  intro rows
  induction rows with
  | nil => intro g n d; rfl
  | cons r rows ih =>
    intro g n d
    rw [List.foldl_cons, ih, applyPlanned_actual]

lemma fillActual_planned (nurses : List Nurse) (days : Nat) :
    ∀ (rows : List RosterRow) (g : Grid) (n d : Nat),
      ((rows.foldl (applyActual nurses days) g) n d).planned = (g n d).planned := by
  intro rows
  induction rows with
  | nil => intro g n d; rfl
  | cons r rows ih =>
    intro g n d
    rw [List.foldl_cons, ih, applyActual_planned]

lemma fillPlanned_planned_of_no_writer (nurses : List Nurse) (days : Nat) :
    ∀ (rows : List RosterRow) (g : Grid) (n d : Nat),
      (∀ r ∈ rows, ¬ Writes nurses days r n d) →
      ((rows.foldl (applyPlanned nurses days) g) n d).planned = (g n d).planned := by
  intro rows
  induction rows with
  | nil => intro g n d _; rfl
  | cons r rows ih =>
    intro g n d h
    rw [List.foldl_cons, ih _ _ _ (fun x hx => h x (List.mem_cons_of_mem r hx)),
      applyPlanned_of_not_writes (h r (List.mem_cons_self r rows))]

lemma fillActual_actual_of_no_writer (nurses : List Nurse) (days : Nat) :
    ∀ (rows : List RosterRow) (g : Grid) (n d : Nat),
      (∀ r ∈ rows, ¬ Writes nurses days r n d) →
      ((rows.foldl (applyActual nurses days) g) n d).actual = (g n d).actual := by
  intro rows
  induction rows with
  | nil => intro g n d _; rfl
  | cons r rows ih =>
    intro g n d h
    rw [List.foldl_cons, ih _ _ _ (fun x hx => h x (List.mem_cons_of_mem r hx)),
      applyActual_of_not_writes (h r (List.mem_cons_self r rows))]

/- The per-nurse counting loop is a pair of filtered counts. -/

lemma tally_foldl (g : Grid) (nid : Nat) :
    ∀ (l : List Nat) (p0 d0 : Nat),
      (l.foldl
        (fun acc d =>
          let c := g nid d
          let pw := workingCodes.contains c.planned
          let al := leaveCodes.contains c.actual
          (if pw then acc.1 + 1 else acc.1, if pw && al then acc.2 + 1 else acc.2))
        (p0, d0)) =
      (p0 + (l.filter (fun d => workingCodes.contains (g nid d).planned)).length,
       d0 + (l.filter (fun d => workingCodes.contains (g nid d).planned &&
         leaveCodes.contains (g nid d).actual)).length) := by
  intro l
  induction l with
  | nil => intro p0 d0; simp
  | cons a l ih =>
    intro p0 d0
    rw [List.foldl_cons, ih]
    by_cases hpw : (g nid a).planned ∈ workingCodes
    · by_cases hal : (g nid a).actual ∈ leaveCodes
      · simp [List.filter_cons, hpw, hal]
        omega
      · simp [List.filter_cons, hpw, hal]
        omega
    · simp [List.filter_cons, hpw]

lemma tally_eq (g : Grid) (nid days : Nat) :
    tally g nid days =
      (((dayList days).filter (fun d => workingCodes.contains (g nid d).planned)).length,
       ((dayList days).filter (fun d => workingCodes.contains (g nid d).planned &&
         leaveCodes.contains (g nid d).actual)).length) := by
  unfold tally
  rw [tally_foldl]
  simp

lemma dayList_length (days : Nat) : (dayList days).length = days := by
  unfold dayList
  rw [List.length_map, List.length_range]

/- Status-map helper lemmas. -/

/-- The `planned` flag of a possibly-absent status entry (an absent entry
or field is falsy). -/
def flagPlanned (o : Option DayStatus) : Bool :=
  match o with
  | none => false
  | some s => s.planned

/-- The `actual` flag of a possibly-absent status entry. -/
def flagActual (o : Option DayStatus) : Bool :=
  match o with
  | none => false
  | some s => s.actual

lemma findStatus_setPlannedFlag (e d : String) :
    ∀ m : StatusMap, findStatus (setPlannedFlag m e) d =
      if d = e then some ⟨true, flagActual (findStatus m e)⟩ else findStatus m d := by
  intro m
  induction m with
  | nil =>
    by_cases hde : d = e
    · subst hde
      simp [setPlannedFlag, findStatus, flagActual]
    · simp [setPlannedFlag, findStatus, hde, Ne.symm hde]
  | cons x m ih =>
    by_cases hxe : x.1 = e
    · by_cases hde : d = e
      · subst hde
        simp [setPlannedFlag, findStatus, hxe, flagActual]
      · have hxd : x.1 ≠ d := fun h => hde (h ▸ hxe)
        simp [setPlannedFlag, findStatus, hxe, hxd, hde, Ne.symm hde]
    · by_cases hxd : x.1 = d
      · have hde : d ≠ e := fun h => hxe (hxd.trans h)
        simp [setPlannedFlag, findStatus, hxe, hxd, hde]
      · simp [setPlannedFlag, findStatus, hxe, hxd, ih]

lemma findStatus_setActualFlag (e d : String) :
    ∀ m : StatusMap, findStatus (setActualFlag m e) d =
      if d = e then some ⟨flagPlanned (findStatus m e), true⟩ else findStatus m d := by
  intro m
  induction m with
  | nil =>
    by_cases hde : d = e
    · subst hde
      simp [setActualFlag, findStatus, flagPlanned]
    · simp [setActualFlag, findStatus, hde, Ne.symm hde]
  | cons x m ih =>
    by_cases hxe : x.1 = e
    · by_cases hde : d = e
      · subst hde
        simp [setActualFlag, findStatus, hxe, flagPlanned]
      · have hxd : x.1 ≠ d := fun h => hde (h ▸ hxe)
        simp [setActualFlag, findStatus, hxe, hxd, hde, Ne.symm hde]
    · by_cases hxd : x.1 = d
      · have hde : d ≠ e := fun h => hxe (hxd.trans h)
        simp [setActualFlag, findStatus, hxe, hxd, hde]
      · simp [setActualFlag, findStatus, hxe, hxd, ih]

lemma flagActual_setPlannedFlag (e d : String) (m : StatusMap) :
    flagActual (findStatus (setPlannedFlag m e) d) = flagActual (findStatus m d) := by
  rw [findStatus_setPlannedFlag]
  by_cases hde : d = e
  · subst hde
    simp [flagActual]
  · simp [hde]

lemma flagPlanned_setActualFlag (e d : String) (m : StatusMap) :
    flagPlanned (findStatus (setActualFlag m e) d) = flagPlanned (findStatus m d) := by
  rw [findStatus_setActualFlag]
  by_cases hde : d = e
  · subst hde
    simp [flagPlanned]
  · simp [hde]

lemma foldPlanned_char (d : String) :
    ∀ (ds : List String) (m : StatusMap),
      findStatus (ds.foldl (fun m d => if d ≠ "" then setPlannedFlag m d else m) m) d =
        if d ∈ ds ∧ d ≠ "" then some ⟨true, flagActual (findStatus m d)⟩
        else findStatus m d := by
  intro ds
  induction ds with
  | nil => intro m; simp
  | cons e ds ih =>
    intro m
    rw [List.foldl_cons, ih]
    by_cases he : e ≠ ""
    · rw [if_pos he]
      by_cases hmem : d ∈ ds ∧ d ≠ ""
      · rw [if_pos hmem, if_pos ⟨List.mem_cons_of_mem e hmem.1, hmem.2⟩,
          flagActual_setPlannedFlag]
      · rw [if_neg hmem, findStatus_setPlannedFlag]
        by_cases hde : d = e
        · subst hde
          rw [if_pos rfl, if_pos ⟨List.mem_cons_self d ds, he⟩]
        · rw [if_neg hde, if_neg]
          intro hc
          rcases List.mem_cons.mp hc.1 with h | h
          · exact hde h
          · exact hmem ⟨h, hc.2⟩
    · rw [if_neg he]
      push_neg at he
      subst he
      by_cases hmem : d ∈ ds ∧ d ≠ ""
      · rw [if_pos hmem, if_pos ⟨List.mem_cons_of_mem _ hmem.1, hmem.2⟩]
      · rw [if_neg hmem, if_neg]
        intro hc
        rcases List.mem_cons.mp hc.1 with h | h
        · exact hc.2 h
        · exact hmem ⟨h, hc.2⟩

lemma foldActual_char (d : String) :
    ∀ (ds : List String) (m : StatusMap),
      findStatus (ds.foldl (fun m d => if d ≠ "" then setActualFlag m d else m) m) d =
        if d ∈ ds ∧ d ≠ "" then some ⟨flagPlanned (findStatus m d), true⟩
        else findStatus m d := by
  intro ds
  induction ds with
  | nil => intro m; simp
  | cons e ds ih =>
    intro m
    rw [List.foldl_cons, ih]
    by_cases he : e ≠ ""
    · rw [if_pos he]
      by_cases hmem : d ∈ ds ∧ d ≠ ""
      · rw [if_pos hmem, if_pos ⟨List.mem_cons_of_mem e hmem.1, hmem.2⟩,
          flagPlanned_setActualFlag]
      · rw [if_neg hmem, findStatus_setActualFlag]
        by_cases hde : d = e
        · subst hde
          rw [if_pos rfl, if_pos ⟨List.mem_cons_self d ds, he⟩]
        · rw [if_neg hde, if_neg]
          intro hc
          rcases List.mem_cons.mp hc.1 with h | h
          · exact hde h
          · exact hmem ⟨h, hc.2⟩
    · rw [if_neg he]
      push_neg at he
      subst he
      by_cases hmem : d ∈ ds ∧ d ≠ ""
      · rw [if_pos hmem, if_pos ⟨List.mem_cons_of_mem _ hmem.1, hmem.2⟩]
      · rw [if_neg hmem, if_neg]
        intro hc
        rcases List.mem_cons.mp hc.1 with h | h
        · exact hc.2 h
        · exact hmem ⟨h, hc.2⟩

lemma mem_plannedDays (db : DB) (month d : String) :
    (d ∈ ((db.planned.filter (fun r => inMonth month r.date)).map
      (fun r => r.date)).dedup) ↔ hasPlanned db month d = true := by
  unfold hasPlanned
  simp only [List.mem_dedup, List.mem_map, List.mem_filter, List.any_eq_true,
    Bool.and_eq_true, beq_iff_eq]
  constructor
  · rintro ⟨r, ⟨hr, hm⟩, hd⟩
    exact ⟨r, hr, hm, hd⟩
  · rintro ⟨r, hr, hm, hd⟩
    exact ⟨r, ⟨hr, hm⟩, hd⟩

lemma mem_actualDays (db : DB) (month d : String) :
    (d ∈ ((db.actual.filter (fun r => inMonth month r.date)).map
      (fun r => r.date)).dedup) ↔ hasActual db month d = true := by
  unfold hasActual
  simp only [List.mem_dedup, List.mem_map, List.mem_filter, List.any_eq_true,
    Bool.and_eq_true, beq_iff_eq]
  constructor
  · rintro ⟨r, ⟨hr, hm⟩, hd⟩
    exact ⟨r, hr, hm, hd⟩
  · rintro ⟨r, hr, hm, hd⟩
    exact ⟨r, ⟨hr, hm⟩, hd⟩

/-- The status object of `GET /api/roster-status`, characterized: an
entry exists for a (truthy) date exactly when the month has a planned or
actual row on it, and each flag reflects its own table. -/
lemma statusMap_char (db : DB) (month d : String) (hd : d ≠ "") :
    findStatus (getStatusMap db month) d =
      if hasPlanned db month d || hasActual db month d then
        some ⟨hasPlanned db month d, hasActual db month d⟩
      else none := by
  unfold getStatusMap
  rw [foldActual_char, foldPlanned_char]
  by_cases hA : hasActual db month d = true
  · rw [if_pos ⟨(mem_actualDays db month d).mpr hA, hd⟩]
    by_cases hP : hasPlanned db month d = true
    · rw [if_pos ⟨(mem_plannedDays db month d).mpr hP, hd⟩]
      simp [flagPlanned, hP, hA]
    · rw [if_neg (fun hc => hP ((mem_plannedDays db month d).mp hc.1))]
      simp only [findStatus]
      have hP' : hasPlanned db month d = false := by
        cases h : hasPlanned db month d
        · rfl
        · exact absurd h hP
      simp [flagPlanned, hP', hA]
  · have hA' : hasActual db month d = false := by
      cases h : hasActual db month d
      · rfl
      · exact absurd h hA
    rw [if_neg (fun hc => hA ((mem_actualDays db month d).mp hc.1))]
    by_cases hP : hasPlanned db month d = true
    · rw [if_pos ⟨(mem_plannedDays db month d).mpr hP, hd⟩]
      simp [hP, hA', flagActual, findStatus]
    · have hP' : hasPlanned db month d = false := by
        cases h : hasPlanned db month d
        · rfl
        · exact absurd h hP
      rw [if_neg (fun hc => hP ((mem_plannedDays db month d).mp hc.1))]
      simp [findStatus, hP', hA']

lemma keys_mem_setPlannedFlag (e d : String) :
    ∀ m : StatusMap, d ∈ (setPlannedFlag m e).map Prod.fst ↔
      d ∈ m.map Prod.fst ∨ d = e := by
  intro m
  induction m with
  | nil => simp [setPlannedFlag, eq_comm]
  | cons x m ih =>
    by_cases hxe : x.1 = e
    · subst hxe
      simp [setPlannedFlag]
      tauto
    · simp [setPlannedFlag, hxe, ih]
      tauto

lemma keys_mem_setActualFlag (e d : String) :
    ∀ m : StatusMap, d ∈ (setActualFlag m e).map Prod.fst ↔
      d ∈ m.map Prod.fst ∨ d = e := by
  intro m
  induction m with
  | nil => simp [setActualFlag, eq_comm]
  | cons x m ih =>
    by_cases hxe : x.1 = e
    · subst hxe
      simp [setActualFlag]
      tauto
    · simp [setActualFlag, hxe, ih]
      tauto

lemma keys_nodup_setPlannedFlag (e : String) :
    ∀ m : StatusMap, (m.map Prod.fst).Nodup →
      ((setPlannedFlag m e).map Prod.fst).Nodup := by
  intro m
  induction m with
  | nil => intro _; simp [setPlannedFlag]
  | cons x m ih =>
    intro h
    simp only [List.map_cons, List.nodup_cons] at h
    by_cases hxe : x.1 = e
    · simp only [setPlannedFlag, if_pos hxe, List.map_cons, List.nodup_cons]
      exact ⟨h.1, h.2⟩
    · simp only [setPlannedFlag, if_neg hxe, List.map_cons, List.nodup_cons]
      refine ⟨fun hc => ?_, ih h.2⟩
      rcases (keys_mem_setPlannedFlag e x.1 m).mp hc with h' | h'
      · exact h.1 h'
      · exact hxe h'

lemma keys_nodup_setActualFlag (e : String) :
    ∀ m : StatusMap, (m.map Prod.fst).Nodup →
      ((setActualFlag m e).map Prod.fst).Nodup := by
  intro m
  induction m with
  | nil => intro _; simp [setActualFlag]
  | cons x m ih =>
    intro h
    simp only [List.map_cons, List.nodup_cons] at h
    by_cases hxe : x.1 = e
    · simp only [setActualFlag, if_pos hxe, List.map_cons, List.nodup_cons]
      exact ⟨h.1, h.2⟩
    · simp only [setActualFlag, if_neg hxe, List.map_cons, List.nodup_cons]
      refine ⟨fun hc => ?_, ih h.2⟩
      rcases (keys_mem_setActualFlag e x.1 m).mp hc with h' | h'
      · exact h.1 h'
      · exact hxe h'

lemma statusMap_keys_nodup (db : DB) (month : String) :
    ((getStatusMap db month).map Prod.fst).Nodup := by
  unfold getStatusMap
  have base :
      ∀ (ds : List String) (m : StatusMap), (m.map Prod.fst).Nodup →
        ((ds.foldl (fun m d => if d ≠ "" then setPlannedFlag m d else m) m).map
          Prod.fst).Nodup := by
    intro ds
    induction ds with
    | nil => intro m h; exact h
    | cons e ds ih =>
      intro m h
      rw [List.foldl_cons]
      by_cases he : e ≠ ""
      · rw [if_pos he]
        exact ih _ (keys_nodup_setPlannedFlag e m h)
      · rw [if_neg he]
        exact ih _ h
  have step :
      ∀ (ds : List String) (m : StatusMap), (m.map Prod.fst).Nodup →
        ((ds.foldl (fun m d => if d ≠ "" then setActualFlag m d else m) m).map
          Prod.fst).Nodup := by
    intro ds
    induction ds with
    | nil => intro m h; exact h
    | cons e ds ih =>
      intro m h
      rw [List.foldl_cons]
      by_cases he : e ≠ ""
      · rw [if_pos he]
        exact ih _ (keys_nodup_setActualFlag e m h)
      · rw [if_neg he]
        exact ih _ h
  exact step _ _ (base _ [] (by simp))

/- Upsert and LEFT JOIN helper lemmas. -/

lemma keyMatch_set (n : Nat) (dt : String) (x : RosterRow) (c w : String) :
    keyMatch n dt { x with shift_code := c, ward := w } = keyMatch n dt x := by
  cases x
  rfl

lemma find?_map_update (n : Nat) (dt : String) (c w : String) :
    ∀ t : List RosterRow,
      ((t.map (fun x =>
          if keyMatch n dt x then { x with shift_code := c, ward := w } else x)).find?
        (keyMatch n dt)) =
      (t.find? (keyMatch n dt)).map (fun x => { x with shift_code := c, ward := w }) := by
  intro t
  induction t with
  | nil => rfl
  | cons x t ih =>
    by_cases hx : keyMatch n dt x = true
    · simp [List.find?_cons, hx, keyMatch_set, ih]
    · simp [List.find?_cons, hx, keyMatch_set, ih]

lemma keyMatch_self (r : RosterRow) : keyMatch r.nurse_id r.date r = true := by
  simp [keyMatch]

lemma find?_upsert (t : List RosterRow) (r : RosterRow) :
    ∃ x, (upsertRow t r).find? (keyMatch r.nurse_id r.date) = some x ∧
      x.shift_code = r.shift_code ∧ x.ward = r.ward := by
  unfold upsertRow
  by_cases ha : t.any (keyMatch r.nurse_id r.date) = true
  · rw [if_pos ha, find?_map_update]
    obtain ⟨x, hx, hpx⟩ := List.any_eq_true.mp ha
    obtain ⟨y, hy⟩ := Option.isSome_iff_exists.mp
      (List.find?_isSome.mpr ⟨x, hx, hpx⟩)
    exact ⟨{ y with shift_code := r.shift_code, ward := r.ward }, by rw [hy]; rfl, rfl, rfl⟩
  · rw [if_neg ha]
    have hnone : t.find? (keyMatch r.nurse_id r.date) = none := by
      rw [List.find?_eq_none]
      intro x hx hpx
      exact ha (List.any_eq_true.mpr ⟨x, hx, hpx⟩)
    refine ⟨r, ?_, rfl, rfl⟩
    rw [List.find?_append, hnone]
    simp [keyMatch_self]

lemma joinShift_upsert (t : List RosterRow) (r : RosterRow) :
    joinShift (upsertRow t r) r.nurse_id r.date = some r.shift_code := by
  obtain ⟨x, hx, hs, _⟩ := find?_upsert t r
  unfold joinShift
  rw [hx, Option.map_some']
  rw [hs]

lemma joinWard_upsert (t : List RosterRow) (r : RosterRow) :
    joinWard (upsertRow t r) r.nurse_id r.date = some r.ward := by
  obtain ⟨x, hx, _, hw⟩ := find?_upsert t r
  unfold joinWard
  rw [hx, Option.map_some']
  rw [hw]

lemma keyMatch_iff (n : Nat) (dt : String) (x : RosterRow) :
    keyMatch n dt x = true ↔ x.nurse_id = n ∧ x.date = dt := by
  simp [keyMatch]

lemma countKey_map_update (n : Nat) (dt : String) (n0 : Nat) (dt0 c w : String) :
    ∀ t : List RosterRow,
      countKey (t.map (fun x =>
        if keyMatch n0 dt0 x then { x with shift_code := c, ward := w } else x)) n dt =
      countKey t n dt := by
  intro t
  induction t with
  | nil => rfl
  | cons x t ih =>
    have hpres : keyMatch n dt
        (if keyMatch n0 dt0 x then { x with shift_code := c, ward := w } else x) =
        keyMatch n dt x := by
      by_cases h0 : keyMatch n0 dt0 x = true
      · rw [if_pos h0, keyMatch_set]
      · rw [if_neg h0]
    unfold countKey at *
    simp only [List.map_cons, List.filter_cons, hpres]
    by_cases hx : keyMatch n dt x = true
    · simp only [hx, if_true, List.length_cons, ih]
    · have hx' : keyMatch n dt x = false := by
        cases h : keyMatch n dt x
        · rfl
        · exact absurd h hx
      simp only [hx', if_false, Bool.false_eq_true, ih]

lemma countKey_pos_of_any (t : List RosterRow) (n : Nat) (dt : String)
    (h : t.any (keyMatch n dt) = true) : 0 < countKey t n dt := by
  obtain ⟨x, hx, hpx⟩ := List.any_eq_true.mp h
  unfold countKey
  have : x ∈ t.filter (keyMatch n dt) := List.mem_filter.mpr ⟨hx, hpx⟩
  exact List.length_pos.mpr (fun he => by simp [he] at this)

lemma countKey_eq_zero_of_not_any (t : List RosterRow) (n : Nat) (dt : String)
    (h : ¬ t.any (keyMatch n dt) = true) : countKey t n dt = 0 := by
  unfold countKey
  rw [List.length_eq_zero]
  rw [List.filter_eq_nil_iff]
  intro x hx
  intro hpx
  exact h (List.any_eq_true.mpr ⟨x, hx, hpx⟩)

lemma WFTable_countKey_le_one (t : List RosterRow) (h : WFTable t) (n : Nat)
    (dt : String) : countKey t n dt ≤ 1 := by
  induction t with
  | nil => simp [countKey]
  | cons x t ih =>
    unfold WFTable at h
    rw [List.pairwise_cons] at h
    unfold countKey at *
    rw [List.filter_cons]
    by_cases hx : keyMatch n dt x = true
    · rw [if_pos hx]
      have hzero : t.filter (keyMatch n dt) = [] := by
        rw [List.filter_eq_nil_iff]
        intro y hy hpy
        obtain ⟨hxn, hxd⟩ := (keyMatch_iff n dt x).mp hx
        obtain ⟨hyn, hyd⟩ := (keyMatch_iff n dt y).mp hpy
        exact h.1 y hy ⟨hxn.trans hyn.symm, hxd.trans hyd.symm⟩
      rw [hzero]
      simp
    · rw [if_neg hx]
      exact ih h.2

lemma countKey_upsert_self (t : List RosterRow) (r : RosterRow) (h : WFTable t) :
    countKey (upsertRow t r) r.nurse_id r.date = 1 := by
  unfold upsertRow
  by_cases ha : t.any (keyMatch r.nurse_id r.date) = true
  · rw [if_pos ha, countKey_map_update]
    have h1 := countKey_pos_of_any t r.nurse_id r.date ha
    have h2 := WFTable_countKey_le_one t h r.nurse_id r.date
    omega
  · rw [if_neg ha]
    unfold countKey
    rw [List.filter_append]
    have hzero : t.filter (keyMatch r.nurse_id r.date) = [] := by
      rw [List.filter_eq_nil_iff]
      intro y hy hpy
      exact ha (List.any_eq_true.mpr ⟨y, hy, hpy⟩)
    rw [hzero]
    simp [keyMatch_self]

lemma WFTable_upsert (t : List RosterRow) (r : RosterRow) (h : WFTable t) :
    WFTable (upsertRow t r) := by
  unfold WFTable at h ⊢
  unfold upsertRow
  by_cases ha : t.any (keyMatch r.nurse_id r.date) = true
  · rw [if_pos ha]
    refine List.Pairwise.map _ ?_ h
    intro a b hab
    by_cases ha' : keyMatch r.nurse_id r.date a = true
    · by_cases hb' : keyMatch r.nurse_id r.date b = true
      · rw [if_pos ha', if_pos hb']
        exact hab
      · rw [if_pos ha', if_neg hb']
        exact hab
    · by_cases hb' : keyMatch r.nurse_id r.date b = true
      · rw [if_neg ha', if_pos hb']
        exact hab
      · rw [if_neg ha', if_neg hb']
        exact hab
  · rw [if_neg ha]
    rw [List.pairwise_append]
    refine ⟨h, by simp [WFTable], ?_⟩
    intro x hx y hy
    rw [List.mem_singleton] at hy
    subst hy
    intro hc
    exact ha (List.any_eq_true.mpr ⟨x, hx, (keyMatch_iff _ _ _).mpr ⟨hc.1, hc.2⟩⟩)

/- Batch upsert characterization. -/

lemma batchUpsert_char (nurses : List Nurse) (dt : String) :
    ∀ (entries : List Entry) (t : List RosterRow) (err0 : Option String),
      entries.foldl
        (fun acc e =>
          if nurseExists nurses e.nurseId then
            (upsertRow acc.1 ⟨e.nurseId, dt, e.shift, e.ward⟩, acc.2)
          else
            (acc.1, if acc.2.isSome then acc.2 else some (fkError e.nurseId)))
        (t, err0) =
      ((entries.filter (fun e => nurseExists nurses e.nurseId)).foldl
          (fun tab e => upsertRow tab ⟨e.nurseId, dt, e.shift, e.ward⟩) t,
        match err0 with
        | some m => some m
        | none =>
          (entries.find? (fun e => !(nurseExists nurses e.nurseId))).map
            (fun e => fkError e.nurseId)) := by
  intro entries
  induction entries with
  | nil =>
    intro t err0
    cases err0 with
    | none => rfl
    | some m => rfl
  | cons e entries ih =>
    intro t err0
    rw [List.foldl_cons]
    by_cases hex : nurseExists nurses e.nurseId = true
    · rw [if_pos hex, ih]
      simp [List.filter_cons, List.find?_cons, hex]
    · rw [if_neg hex, ih]
      cases err0 with
      | none => simp [List.filter_cons, List.find?_cons, hex]
      | some m => simp [List.filter_cons, List.find?_cons, hex]

/- Report row layout lemmas. -/

lemma mem_addRows (g : Grid) (days : Nat) :
    ∀ (nurses : List Nurse) (cg : Int) (nu : Nurse), nu ∈ nurses →
      GridRow.data (nurseRow g days nu) ∈ addRows g days nurses cg := by
  intro nurses
  induction nurses with
  | nil => intro cg nu h; exact absurd h (List.not_mem_nil nu)
  | cons x nurses ih =>
    intro cg nu h
    unfold addRows
    rw [List.mem_append]
    rcases List.mem_cons.mp h with h | h
    · subst h
      exact Or.inr (List.mem_cons_self _ _)
    · exact Or.inr (List.mem_cons_of_mem _ (ih x.group_id nu h))

lemma addRows_eq_spec (g : Grid) (days : Nat) :
    ∀ (tl : List Nurse) (prevG : Int), prevG ≠ 0 →
      (∀ nu ∈ tl, nu.group_id ≠ 0) →
      addRows g days tl prevG = specSeparatedRows g days prevG tl := by
  intro tl
  induction tl with
  | nil => intro prevG _ _; rfl
  | cons nu tl ih =>
    intro prevG hprev hall
    unfold addRows specSeparatedRows
    rw [ih nu.group_id (hall nu (List.mem_cons_self nu tl))
      (fun x hx => hall x (List.mem_cons_of_mem nu hx))]
    by_cases hg : nu.group_id = prevG
    · rw [if_neg (fun hc => hc.1 hg), if_pos hg]
    · rw [if_pos ⟨hg, hprev⟩, if_neg hg]

/- Deviation-format rounding bounds. -/

lemma formatDeviation_digits (dev p : Nat) (hp : p ≠ 0) :
    ∃ k r, formatDeviation dev p = toString k ++ "." ++ toString r ++ "%" ∧ r < 10 ∧
      2 * p * (10 * k + r) ≤ 2000 * dev + p ∧
      2000 * dev < 2 * p * (10 * k + r) + 2 * p := by
  unfold formatDeviation
  rw [if_neg hp]
  refine ⟨(2000 * dev + p) / (2 * p) / 10, (2000 * dev + p) / (2 * p) % 10, rfl,
    Nat.mod_lt _ (by omega), ?_, ?_⟩
  · have h1 := Nat.div_add_mod (2000 * dev + p) (2 * p)
    have h2 : (2000 * dev + p) % (2 * p) < 2 * p := Nat.mod_lt _ (by omega)
    have h3 : 10 * ((2000 * dev + p) / (2 * p) / 10) +
        (2000 * dev + p) / (2 * p) % 10 = (2000 * dev + p) / (2 * p) := by omega
    rw [h3]
    omega
  · have h1 := Nat.div_add_mod (2000 * dev + p) (2 * p)
    have h2 : (2000 * dev + p) % (2 * p) < 2 * p := Nat.mod_lt _ (by omega)
    have h3 : 10 * ((2000 * dev + p) / (2 * p) / 10) +
        (2000 * dev + p) / (2 * p) % 10 = (2000 * dev + p) / (2 * p) := by omega
    rw [h3]
    omega

/- Cells of nurses without any stored rows. -/

lemma builtGrid_no_rows (nurses : List Nurse) (days : Nat) (pRows aRows : List RosterRow)
    (nid : Nat) (hp : ∀ r ∈ pRows, r.nurse_id ≠ nid) (ha : ∀ r ∈ aRows, r.nurse_id ≠ nid)
    (d : Nat) : builtGrid nurses days pRows aRows nid d = ⟨"", ""⟩ := by
  have hwp : ∀ r ∈ pRows, ¬ Writes nurses days r nid d := fun r hr hw => hp r hr hw.2.2.1
  have hwa : ∀ r ∈ aRows, ¬ Writes nurses days r nid d := fun r hr hw => ha r hr hw.2.2.1
  have hpl : (builtGrid nurses days pRows aRows nid d).planned = "" := by
    unfold builtGrid
    rw [fillActual_planned nurses days aRows _ nid d,
      fillPlanned_planned_of_no_writer nurses days pRows emptyGrid nid d hwp]
    rfl
  have hac : (builtGrid nurses days pRows aRows nid d).actual = "" := by
    unfold builtGrid
    rw [fillActual_actual_of_no_writer nurses days aRows _ nid d hwa,
      fillPlanned_actual nurses days pRows emptyGrid nid d]
    rfl
  have heta : builtGrid nurses days pRows aRows nid d =
      ⟨(builtGrid nurses days pRows aRows nid d).planned,
        (builtGrid nurses days pRows aRows nid d).actual⟩ := rfl
  rw [heta, hpl, hac]

lemma nurseRow_no_rows (nurses : List Nurse) (days : Nat) (pRows aRows : List RosterRow)
    (nu : Nurse) (hp : ∀ r ∈ pRows, r.nurse_id ≠ nu.nurse_id)
    (ha : ∀ r ∈ aRows, r.nurse_id ≠ nu.nurse_id) :
    nurseRow (builtGrid nurses days pRows aRows) days nu =
      ⟨nu.full_name, List.replicate days "", "0.0%"⟩ := by
  have hcell := builtGrid_no_rows nurses days pRows aRows nu.nurse_id hp ha
  have hcells : (dayList days).map
      (fun d => displayCode (builtGrid nurses days pRows aRows nu.nurse_id d)) =
      List.replicate days "" := by
    rw [show (fun d => displayCode (builtGrid nurses days pRows aRows nu.nurse_id d)) =
        fun _ => "" from funext fun d => by rw [hcell d]; rfl]
    rw [List.map_const', dayList_length]
  have ht : tally (builtGrid nurses days pRows aRows) nu.nurse_id days = (0, 0) := by
    rw [tally_eq]
    have h1 : (dayList days).filter
        (fun d => workingCodes.contains
          (builtGrid nurses days pRows aRows nu.nurse_id d).planned) = [] := by
      rw [List.filter_eq_nil_iff]
      intro d _
      rw [hcell d]
      decide
    have h2 : (dayList days).filter
        (fun d => workingCodes.contains
            (builtGrid nurses days pRows aRows nu.nurse_id d).planned &&
          leaveCodes.contains
            (builtGrid nurses days pRows aRows nu.nurse_id d).actual) = [] := by
      rw [List.filter_eq_nil_iff]
      intro d _
      rw [hcell d]
      decide
    rw [h1, h2]
    rfl
  unfold nurseRow
  rw [ht, hcells]
  rfl

/- Rows the fill guards refuse entirely. -/

lemma badDay_not_writes {month : String} {r : RosterRow} (h : badDayRow month r = true)
    (nurses : List Nurse) (n d : Nat) : ¬ Writes nurses (reportDays month) r n d := by
  intro hw
  obtain ⟨_, _, _, h4, h5, h6⟩ := hw
  unfold badDayRow at h
  rw [h4] at h
  simp at h
  rcases h with h | h
  · exact h5 h
  · omega

lemma applyPlanned_badDay {month : String} {r : RosterRow} (h : badDayRow month r = true)
    (nurses : List Nurse) (g : Grid) :
    applyPlanned nurses (reportDays month) g r = g := by
  funext n d
  exact applyPlanned_of_not_writes (badDay_not_writes h nurses n d) g

lemma applyActual_badDay {month : String} {r : RosterRow} (h : badDayRow month r = true)
    (nurses : List Nurse) (g : Grid) :
    applyActual nurses (reportDays month) g r = g := by
  funext n d
  exact applyActual_of_not_writes (badDay_not_writes h nurses n d) g

/-- C1: in the report builder, for every nurse and every day of the target
month, the day counts toward the nurse's planned-shift total exactly when
the cell's planned code is one of {A, M, N, G}, and it counts as a
deviation exactly when that holds and the cell's actual code is one of
{WO, NO, SO, PL, SL, NH, PH}; each such day contributes exactly 1 to the
respective count (the counts are the sizes of the filtered day sets). -/
theorem claim_C1_deviation_rule (g : Grid) (nid days : Nat) :
    tally g nid days =
      (((dayList days).filter (fun d => workingCodes.contains (g nid d).planned)).length,
       ((dayList days).filter (fun d => workingCodes.contains (g nid d).planned &&
          leaveCodes.contains (g nid d).actual)).length) ∧
    (∀ s : String, workingCodes.contains s = true ↔
      s = "A" ∨ s = "M" ∨ s = "N" ∨ s = "G") ∧
    (∀ s : String, leaveCodes.contains s = true ↔
      s = "WO" ∨ s = "NO" ∨ s = "SO" ∨ s = "PL" ∨ s = "SL" ∨ s = "NH" ∨ s = "PH") := by
  refine ⟨tally_eq g nid days, fun s => ?_, fun s => ?_⟩
  · simp [workingCodes]
  · constructor
    · intro h
      simp [leaveCodes] at h
      tauto
    · intro h
      simp [leaveCodes]
      tauto

/-- C2 (amended): a stored row with an empty shift code is invisible to
the report builder — removing it changes nothing, provided no other
fetched row fills the same cell (the `UNIQUE(nurse_id, date)` constraint
on canonical dates) — but it is NOT invisible to `getStatusMap`: the
status query selects dates without looking at shift codes, so the row's
date is marked as having a planned (resp. actual) entry exactly as a
non-empty row's date would be. -/
theorem claim_C2_empty_code :
    (∀ (nurses : List Nurse) (month : String) (aRows pre post : List RosterRow)
      (r : RosterRow), r.shift_code = "" →
      (∀ r' ∈ pre ++ post, ∀ n d, Writes nurses (reportDays month) r n d →
        ¬ Writes nurses (reportDays month) r' n d) →
      buildReport nurses (pre ++ r :: post) aRows month =
        buildReport nurses (pre ++ post) aRows month) ∧
    (∀ (nurses : List Nurse) (month : String) (pRows pre post : List RosterRow)
      (r : RosterRow), r.shift_code = "" →
      (∀ r' ∈ pre ++ post, ∀ n d, Writes nurses (reportDays month) r n d →
        ¬ Writes nurses (reportDays month) r' n d) →
      buildReport nurses pRows (pre ++ r :: post) month =
        buildReport nurses pRows (pre ++ post) month) ∧
    (∀ (db : DB) (month : String) (r : RosterRow), r ∈ db.planned → r.date ≠ "" →
      inMonth month r.date = true →
      ∃ s, findStatus (getStatusMap db month) r.date = some s ∧ s.planned = true) ∧
    (∀ (db : DB) (month : String) (r : RosterRow), r ∈ db.actual → r.date ≠ "" →
      inMonth month r.date = true →
      ∃ s, findStatus (getStatusMap db month) r.date = some s ∧ s.actual = true) := by
  refine ⟨?_, ?_, ?_, ?_⟩
  · intro nurses month aRows pre post r hrc H
    have hbase :
        applyPlanned nurses (reportDays month)
          (pre.foldl (applyPlanned nurses (reportDays month)) emptyGrid) r =
        pre.foldl (applyPlanned nurses (reportDays month)) emptyGrid := by
      funext n d
      by_cases hw : Writes nurses (reportDays month) r n d
      · rw [applyPlanned_of_writes hw]
        have hpre : ∀ r' ∈ pre, ¬ Writes nurses (reportDays month) r' n d :=
          fun r' hr' => H r' (List.mem_append_left post hr') n d hw
        have hpl : ((pre.foldl (applyPlanned nurses (reportDays month)) emptyGrid)
            n d).planned = "" := by
          rw [fillPlanned_planned_of_no_writer nurses (reportDays month) pre emptyGrid
            n d hpre]
          rfl
        have heta : (pre.foldl (applyPlanned nurses (reportDays month)) emptyGrid) n d =
            ⟨((pre.foldl (applyPlanned nurses (reportDays month)) emptyGrid) n d).planned,
              ((pre.foldl (applyPlanned nurses (reportDays month)) emptyGrid)
                n d).actual⟩ := rfl
        rw [heta, hpl, hrc]
      · rw [applyPlanned_of_not_writes hw]
    unfold buildReport builtGrid
    rw [List.foldl_append, List.foldl_append, List.foldl_cons, hbase]
  · intro nurses month pRows pre post r hrc H
    have hbase :
        applyActual nurses (reportDays month)
          (pre.foldl (applyActual nurses (reportDays month))
            (pRows.foldl (applyPlanned nurses (reportDays month)) emptyGrid)) r =
        pre.foldl (applyActual nurses (reportDays month))
          (pRows.foldl (applyPlanned nurses (reportDays month)) emptyGrid) := by
      funext n d
      by_cases hw : Writes nurses (reportDays month) r n d
      · rw [applyActual_of_writes hw]
        have hpre : ∀ r' ∈ pre, ¬ Writes nurses (reportDays month) r' n d :=
          fun r' hr' => H r' (List.mem_append_left post hr') n d hw
        have hac : ((pre.foldl (applyActual nurses (reportDays month))
            (pRows.foldl (applyPlanned nurses (reportDays month)) emptyGrid))
              n d).actual = "" := by
          rw [fillActual_actual_of_no_writer nurses (reportDays month) pre _ n d hpre,
            fillPlanned_actual nurses (reportDays month) pRows emptyGrid n d]
          rfl
        have heta : (pre.foldl (applyActual nurses (reportDays month))
            (pRows.foldl (applyPlanned nurses (reportDays month)) emptyGrid)) n d =
            ⟨((pre.foldl (applyActual nurses (reportDays month))
                (pRows.foldl (applyPlanned nurses (reportDays month)) emptyGrid))
                  n d).planned,
              ((pre.foldl (applyActual nurses (reportDays month))
                (pRows.foldl (applyPlanned nurses (reportDays month)) emptyGrid))
                  n d).actual⟩ := rfl
        rw [heta, hac, hrc]
      · rw [applyActual_of_not_writes hw]
    unfold buildReport builtGrid
    rw [List.foldl_append, List.foldl_append, List.foldl_cons, hbase]
  · intro db month r hr hd hm
    have hP : hasPlanned db month r.date = true := by
      unfold hasPlanned
      rw [List.any_eq_true]
      exact ⟨r, hr, by rw [hm]; simp⟩
    refine ⟨⟨true, hasActual db month r.date⟩, ?_, rfl⟩
    rw [statusMap_char db month r.date hd, hP]
    simp
  · intro db month r hr hd hm
    have hA : hasActual db month r.date = true := by
      unfold hasActual
      rw [List.any_eq_true]
      exact ⟨r, hr, by rw [hm]; simp⟩
    refine ⟨⟨hasPlanned db month r.date, true⟩, ?_, rfl⟩
    rw [statusMap_char db month r.date hd, hA]
    simp

/-- C2 counterexample: the claim as stated is false — a planned row for
2025-07-05 whose shift code is the empty string makes `getStatusMap` mark
that date as having a planned entry, while with the row absent the status
map is empty. -/
theorem claim_C2_counterexample :
    getStatusMap ⟨[], [⟨1, "2025-07-05", "", ""⟩], []⟩ "2025-07" =
      [("2025-07-05", ⟨true, false⟩)] ∧
    getStatusMap ⟨[], [], []⟩ "2025-07" = [] := by
  exact ⟨by decide, by decide⟩

/-- C2 witness: the amended report-side statement applied to a concrete
empty-code planned row. -/
theorem claim_C2_witness :
    (⟨1, "2025-07-01", "", "W1"⟩ : RosterRow).shift_code = "" ∧
    buildReport [⟨1, "Alice", 1⟩] [⟨1, "2025-07-01", "", "W1"⟩] [] "2025-07" =
      buildReport [⟨1, "Alice", 1⟩] [] [] "2025-07" :=
  ⟨rfl, claim_C2_empty_code.1 [⟨1, "Alice", 1⟩] "2025-07" [] [] []
    ⟨1, "2025-07-01", "", "W1"⟩ rfl (by simp)⟩

/-- C3: the displayed code of a report cell is the actual code when
non-empty, else the planned code when non-empty, else empty; and in the
concrete 2025-07 scenario (planned day 1 = "M", actual day 1 = "SL") the
report shows "SL" on day 1 with planned-shift count 1, deviation count 1
and deviation cell "100.0%". -/
theorem claim_C3_display_and_scenario :
    (∀ c : Cell, displayCode c =
      if c.actual ≠ "" then c.actual else if c.planned ≠ "" then c.planned else "") ∧
    reportActual ⟨[⟨1, "Alice", 1⟩], [⟨1, "2025-07-01", "M", "W1"⟩],
        [⟨1, "2025-07-01", "SL", ""⟩]⟩ "2025-07" =
      [GridRow.data ⟨"Alice", "SL" :: List.replicate 30 "", "100.0%"⟩] ∧
    tally (builtGrid [⟨1, "Alice", 1⟩] 31 [⟨1, "2025-07-01", "M", "W1"⟩]
      [⟨1, "2025-07-01", "SL", ""⟩]) 1 31 = (1, 1) := by
  refine ⟨?_, by decide, by decide⟩
  intro c
  unfold displayCode jsOr
  by_cases ha : c.actual = ""
  · by_cases hp : c.planned = ""
    · simp [ha, hp]
    · simp [ha, hp]
  · simp [ha]

/-- C4: each deviation cell is one decimal digit after the point followed
by `%`, its value `10 k + r` (in tenths of a percent) is the number
nearest `1000 · dev / planned` (ties rounded up), expressed by the two
integer bounds; a zero planned-shift count yields exactly `"0.0%"`; and a
nurse with no planned and no actual rows still appears in the report grid
with all-empty day cells and `"0.0%"`. -/
theorem claim_C4_deviation_format :
    (∀ dev p : Nat, p ≠ 0 →
      ∃ k r, formatDeviation dev p = toString k ++ "." ++ toString r ++ "%" ∧ r < 10 ∧
        2 * p * (10 * k + r) ≤ 2000 * dev + p ∧
        2000 * dev < 2 * p * (10 * k + r) + 2 * p) ∧
    (∀ dev : Nat, formatDeviation dev 0 = "0.0%") ∧
    (∀ (nurses : List Nurse) (pRows aRows : List RosterRow) (month : String)
      (nu : Nurse), nu ∈ nurses →
      (∀ r ∈ pRows, r.nurse_id ≠ nu.nurse_id) →
      (∀ r ∈ aRows, r.nurse_id ≠ nu.nurse_id) →
      GridRow.data ⟨nu.full_name, List.replicate (reportDays month) "", "0.0%"⟩ ∈
        buildReport nurses pRows aRows month) := by
  refine ⟨formatDeviation_digits, fun dev => rfl, ?_⟩
  intro nurses pRows aRows month nu hmem hp ha
  have h := mem_addRows (builtGrid nurses (reportDays month) pRows aRows)
    (reportDays month) nurses 0 nu hmem
  rw [nurseRow_no_rows nurses (reportDays month) pRows aRows nu hp ha] at h
  exact h

/-- C4 witness: the nearest-tenth bounds at `dev = 1`, `planned = 3`, and
a one-nurse report with no stored rows showing the all-empty row. -/
theorem claim_C4_witness :
    (∃ k r, formatDeviation 1 3 = toString k ++ "." ++ toString r ++ "%" ∧ r < 10 ∧
      2 * 3 * (10 * k + r) ≤ 2000 * 1 + 3 ∧
      2000 * 1 < 2 * 3 * (10 * k + r) + 2 * 3) ∧
    GridRow.data ⟨"Alice", List.replicate (reportDays "2025-07") "", "0.0%"⟩ ∈
      buildReport [⟨1, "Alice", 1⟩] [] [] "2025-07" :=
  ⟨claim_C4_deviation_format.1 1 3 (by decide),
    claim_C4_deviation_format.2.2 [⟨1, "Alice", 1⟩] [] [] "2025-07" ⟨1, "Alice", 1⟩
      (by decide) (by simp) (by simp)⟩

/-- C5: the status map has one entry per distinct (truthy) date of the
month that has at least one planned or actual row; the planned flag is set
exactly when a planned row exists on that date and the actual flag exactly
when an actual row exists; a month with one planned-only date and one
actual-only date yields two distinct one-flag entries. -/
theorem claim_C5_status_map :
    (∀ (db : DB) (month : String), ((getStatusMap db month).map Prod.fst).Nodup) ∧
    (∀ (db : DB) (month d : String), d ≠ "" →
      findStatus (getStatusMap db month) d =
        if hasPlanned db month d || hasActual db month d then
          some ⟨hasPlanned db month d, hasActual db month d⟩
        else none) ∧
    getStatusMap ⟨[], [⟨1, "2025-07-01", "M", "W1"⟩], [⟨1, "2025-07-02", "SL", ""⟩]⟩
        "2025-07" =
      [("2025-07-01", ⟨true, false⟩), ("2025-07-02", ⟨false, true⟩)] :=
  ⟨statusMap_keys_nodup, statusMap_char, by decide⟩

/-- C5 witness: the characterization applied to a month with one planned
row. -/
theorem claim_C5_witness :
    ("2025-07-01" : String) ≠ "" ∧
    findStatus (getStatusMap ⟨[], [⟨1, "2025-07-01", "M", "W1"⟩], []⟩ "2025-07")
        "2025-07-01" =
      if hasPlanned ⟨[], [⟨1, "2025-07-01", "M", "W1"⟩], []⟩ "2025-07" "2025-07-01" ||
          hasActual ⟨[], [⟨1, "2025-07-01", "M", "W1"⟩], []⟩ "2025-07" "2025-07-01" then
        some ⟨hasPlanned ⟨[], [⟨1, "2025-07-01", "M", "W1"⟩], []⟩ "2025-07" "2025-07-01",
          hasActual ⟨[], [⟨1, "2025-07-01", "M", "W1"⟩], []⟩ "2025-07" "2025-07-01"⟩
      else none :=
  ⟨by decide, claim_C5_status_map.2.1 ⟨[], [⟨1, "2025-07-01", "M", "W1"⟩], []⟩
    "2025-07" "2025-07-01" (by decide)⟩

/-- C6: on a table satisfying the `UNIQUE(nurse_id, date)` constraint,
upserting an assignment and reading the roster for that date returns
exactly the stored code and ward for that nurse (for both the planned and
the actual variant); re-upserting the same key with different values
overwrites in place, and after each upsert exactly one row holds the key. -/
theorem claim_C6_upsert_roundtrip (nurses : List Nurse) (p a : List RosterRow)
    (hp : WFTable p) (ha : WFTable a) (i : Nat) (nu : Nurse)
    (hi : nurses[i]? = some nu) (dt c w c' w' : String) :
    (getRoster nurses (upsertRow p ⟨nu.nurse_id, dt, c, w⟩) a dt)[i]? =
      some ⟨nu.nurse_id, nu.full_name, nu.group_id, some c, some w,
        joinShift a nu.nurse_id dt, joinWard a nu.nurse_id dt⟩ ∧
    countKey (upsertRow p ⟨nu.nurse_id, dt, c, w⟩) nu.nurse_id dt = 1 ∧
    joinShift (upsertRow (upsertRow p ⟨nu.nurse_id, dt, c, w⟩) ⟨nu.nurse_id, dt, c', w'⟩)
      nu.nurse_id dt = some c' ∧
    joinWard (upsertRow (upsertRow p ⟨nu.nurse_id, dt, c, w⟩) ⟨nu.nurse_id, dt, c', w'⟩)
      nu.nurse_id dt = some w' ∧
    countKey (upsertRow (upsertRow p ⟨nu.nurse_id, dt, c, w⟩) ⟨nu.nurse_id, dt, c', w'⟩)
      nu.nurse_id dt = 1 ∧
    (getRoster nurses p (upsertRow a ⟨nu.nurse_id, dt, c, w⟩) dt)[i]? =
      some ⟨nu.nurse_id, nu.full_name, nu.group_id, joinShift p nu.nurse_id dt,
        joinWard p nu.nurse_id dt, some c, some w⟩ ∧
    countKey (upsertRow a ⟨nu.nurse_id, dt, c, w⟩) nu.nurse_id dt = 1 := by
  refine ⟨?_, countKey_upsert_self p _ hp, joinShift_upsert _ _, joinWard_upsert _ _,
    countKey_upsert_self _ _ (WFTable_upsert p _ hp), ?_, countKey_upsert_self a _ ha⟩
  · unfold getRoster
    rw [List.getElem?_map, hi, Option.map_some']
    rw [joinShift_upsert p ⟨nu.nurse_id, dt, c, w⟩, joinWard_upsert p ⟨nu.nurse_id, dt, c, w⟩]
  · unfold getRoster
    rw [List.getElem?_map, hi, Option.map_some']
    rw [joinShift_upsert a ⟨nu.nurse_id, dt, c, w⟩, joinWard_upsert a ⟨nu.nurse_id, dt, c, w⟩]

/-- C6 witness: a concrete upsert/re-upsert round trip on empty tables. -/
theorem claim_C6_witness :
    WFTable [] ∧ ([⟨1, "Alice", 1⟩] : List Nurse)[0]? = some ⟨1, "Alice", 1⟩ ∧
    joinShift (upsertRow (upsertRow [] ⟨1, "2025-07-01", "M", "W1"⟩)
      ⟨1, "2025-07-01", "N", "W2"⟩) 1 "2025-07-01" = some "N" :=
  ⟨by simp [WFTable], rfl,
    (claim_C6_upsert_roundtrip [⟨1, "Alice", 1⟩] [] [] (by simp [WFTable])
      (by simp [WFTable]) 0 ⟨1, "Alice", 1⟩ rfl "2025-07-01" "M" "W1" "N" "W2").2.2.1⟩

/-- C7: the batch upsert's final table applies exactly the entries whose
nurse exists (each independently, in order, none rolled back), and the
response error is the first failing entry's foreign-key message — `none`
when no entry fails. -/
theorem claim_C7_batch_upsert (nurses : List Nurse) (t : List RosterRow) (dt : String)
    (entries : List Entry) :
    (batchUpsert nurses t dt entries).2 =
      (entries.find? (fun e => !(nurseExists nurses e.nurseId))).map
        (fun e => fkError e.nurseId) ∧
    (batchUpsert nurses t dt entries).1 =
      (entries.filter (fun e => nurseExists nurses e.nurseId)).foldl
        (fun tab e => upsertRow tab ⟨e.nurseId, dt, e.shift, e.ward⟩) t := by
  unfold batchUpsert
  rw [batchUpsert_char]
  exact ⟨rfl, rfl⟩

/-- C8 (amended): a fetched row whose day component does not parse as a
positive day of the target month is skipped silently — the report equals
the report with the row absent (still produced, no other cell affected) —
and no warning is logged: the catch branch holding the log is unreachable
because `split`/`parseInt` return `NaN` instead of throwing. -/
theorem claim_C8_bad_date_skipped :
    (∀ (nurses : List Nurse) (month : String) (aRows pre post : List RosterRow)
      (r : RosterRow), badDayRow month r = true →
      buildReport nurses (pre ++ r :: post) aRows month =
        buildReport nurses (pre ++ post) aRows month) ∧
    (∀ (nurses : List Nurse) (month : String) (pRows pre post : List RosterRow)
      (r : RosterRow), badDayRow month r = true →
      buildReport nurses pRows (pre ++ r :: post) month =
        buildReport nurses pRows (pre ++ post) month) ∧
    (∀ pRows aRows : List RosterRow, reportWarnings pRows aRows = []) := by
  refine ⟨?_, ?_, fun _ _ => rfl⟩
  · intro nurses month aRows pre post r h
    unfold buildReport builtGrid
    rw [List.foldl_append, List.foldl_append, List.foldl_cons, applyPlanned_badDay h]
  · intro nurses month pRows pre post r h
    unfold buildReport builtGrid
    rw [List.foldl_append, List.foldl_append, List.foldl_cons, applyActual_badDay h]

/-- C8 counterexample: the claim as stated is false in its logging part —
a planned row dated "July 5, 2025" (a valid PostgreSQL date of the month
whose day component the `split("-")` parse cannot read) is skipped, the
report is produced unchanged, and the warning log is empty. -/
theorem claim_C8_counterexample :
    buildReport [⟨1, "Alice", 1⟩] [⟨1, "July 5, 2025", "M", "W1"⟩] [] "2025-07" =
      buildReport [⟨1, "Alice", 1⟩] [] [] "2025-07" ∧
    reportWarnings [⟨1, "July 5, 2025", "M", "W1"⟩] [] = [] :=
  ⟨by decide, rfl⟩

/-- C8 witness: the amended skip statement applied to the concrete
unparseable-date row. -/
theorem claim_C8_witness :
    badDayRow "2025-07" ⟨1, "July 5, 2025", "M", "W1"⟩ = true ∧
    buildReport [⟨2, "Bea", 1⟩] [⟨1, "July 5, 2025", "M", "W1"⟩] [] "2025-07" =
      buildReport [⟨2, "Bea", 1⟩] [] [] "2025-07" :=
  ⟨by decide, claim_C8_bad_date_skipped.1 [⟨2, "Bea", 1⟩] "2025-07" [] [] []
    ⟨1, "July 5, 2025", "M", "W1"⟩ (by decide)⟩

/-- C9 (amended): provided no nurse carries group number 0 (the
`currentGroup` sentinel), the report rows are the first nurse's data row —
never preceded by a blank — followed by the remaining nurses, each
preceded by exactly one blank row iff their group differs from the
previous nurse's. -/
theorem claim_C9_group_separators (g : Grid) (days : Nat) (hd : Nurse)
    (tl : List Nurse) (h0 : hd.group_id ≠ 0) (hall : ∀ nu ∈ tl, nu.group_id ≠ 0) :
    reportRows g days (hd :: tl) =
      GridRow.data (nurseRow g days hd) :: specSeparatedRows g days hd.group_id tl := by
  have hstep : addRows g days (hd :: tl) 0 =
      (if hd.group_id ≠ 0 ∧ (0 : Int) ≠ 0 then [GridRow.blank] else []) ++
        GridRow.data (nurseRow g days hd) :: addRows g days tl hd.group_id := rfl
  unfold reportRows
  rw [hstep, if_neg (fun hc => hc.2 rfl), addRows_eq_spec g days tl hd.group_id h0 hall]
  rfl

/-- C9 counterexample: the claim as stated is false — with a nurse of
group 0 first (group 0 is creatable through the API, see C10), the row for
the following nurse of group 1 is NOT preceded by a blank row although the
group numbers differ. -/
theorem claim_C9_counterexample :
    reportRows emptyGrid 1 [⟨1, "A", 0⟩, ⟨2, "B", 1⟩] =
      [GridRow.data ⟨"A", [""], "0.0%"⟩, GridRow.data ⟨"B", [""], "0.0%"⟩] ∧
    (⟨1, "A", 0⟩ : Nurse).group_id ≠ (⟨2, "B", 1⟩ : Nurse).group_id ∧
    GridRow.blank ∉ reportRows emptyGrid 1 [⟨1, "A", 0⟩, ⟨2, "B", 1⟩] :=
  ⟨by decide, by decide, by decide⟩

/-- C9 witness: the amended separator statement on a two-group list. -/
theorem claim_C9_witness :
    ((⟨1, "A", 1⟩ : Nurse).group_id ≠ 0) ∧
    reportRows emptyGrid 1 [⟨1, "A", 1⟩, ⟨2, "B", 2⟩] =
      GridRow.data (nurseRow emptyGrid 1 ⟨1, "A", 1⟩) ::
        specSeparatedRows emptyGrid 1 1 [⟨2, "B", 2⟩] :=
  ⟨by decide, claim_C9_group_separators emptyGrid 1 ⟨1, "A", 1⟩ [⟨2, "B", 2⟩]
    (by decide)
    (by
      intro nu h
      rw [List.mem_singleton] at h
      subst h
      decide)⟩

/-- C10 (amended): nurse creation rejects every falsy `name`/`group` —
the empty-string name, the JSON number 0, and a missing group — with the
400 error "Name and group are required"; but a group sent as the string
"0" (what the stock frontend sends from its input field) is truthy,
passes the validation, and creates a nurse whose stored group number is
0, so group 0 is reachable through the API and the report's separator
sentinel can be defeated. -/
theorem claim_C10_nurse_validation :
    (∀ g : JVal, createNurse "" g = Except.error "Name and group are required") ∧
    (∀ name : String,
      createNurse name (JVal.jnum 0) = Except.error "Name and group are required") ∧
    (∀ name : String,
      createNurse name JVal.jnull = Except.error "Name and group are required") ∧
    (∀ name : String, name ≠ "" → createNurse name (JVal.jstr "0") = Except.ok 0) := by
  refine ⟨fun g => ?_, fun name => ?_, fun name => ?_, fun name h => ?_⟩
  · simp [createNurse]
  · simp [createNurse, truthy]
  · simp [createNurse, truthy]
  · simp only [createNurse, truthy]
    rw [if_neg]
    · rfl
    · simp [h]

/-- C10 counterexample: the claim's consequence is false — a request with
name "Alice" and group given as the string "0" is accepted and creates a
nurse with group number 0. -/
theorem claim_C10_counterexample :
    createNurse "Alice" (JVal.jstr "0") = Except.ok 0 := by
  rfl

/-- C10 witness: the amended validation statement at concrete inputs. -/
theorem claim_C10_witness :
    ("Bob" : String) ≠ "" ∧ createNurse "Bob" (JVal.jstr "0") = Except.ok 0 :=
  ⟨by decide, claim_C10_nurse_validation.2.2.2 "Bob" (by decide)⟩

end Attend
